import Mathlib

/-!
Verification of the Project-Mcap export pipeline (landmark smoothing,
virtual-joint derivation, rotation solving, BVH and FBX serialization).

All numeric code is embedded over `ℚ`, the exact-arithmetic stand-in for
the source's IEEE doubles.  `Math.sqrt` is embedded by `ratSqrt`, which is
exact whenever the radicand is a perfect rational square (every concrete
evaluation appearing in a theorem below is of that kind); theorems whose
truth depends on exact square roots on arbitrary inputs take the
normalization as a relational hypothesis instead of evaluating `ratSqrt`.
-/

/-- Embeds `Landmark3D` from `types.ts`: 3D position plus optional
visibility. -/
structure Landmark where
  x : ℚ
  y : ℚ
  z : ℚ
  visibility : Option ℚ
deriving DecidableEq, Repr

/-- Embeds `MocapFrame` from `types.ts`. -/
structure Frame where
  timestamp : ℚ
  landmarks : List Landmark
deriving DecidableEq, Repr

/-- MediaPipe pose landmark indices (`MP_POSE` in `types.ts`); only the
entries the exporters consume are kept. -/
def MP_NOSE : ℕ := 0
def MP_LEFT_SHOULDER : ℕ := 11
def MP_RIGHT_SHOULDER : ℕ := 12
def MP_LEFT_ELBOW : ℕ := 13
def MP_RIGHT_ELBOW : ℕ := 14
def MP_LEFT_WRIST : ℕ := 15
def MP_RIGHT_WRIST : ℕ := 16
def MP_LEFT_HIP : ℕ := 23
def MP_RIGHT_HIP : ℕ := 24
def MP_LEFT_KNEE : ℕ := 25
def MP_RIGHT_KNEE : ℕ := 26
def MP_LEFT_ANKLE : ℕ := 27
def MP_RIGHT_ANKLE : ℕ := 28

/-- Embeds `THREE.Vector3` (the fields the pipeline uses). -/
structure Vec3 where
  x : ℚ
  y : ℚ
  z : ℚ
deriving DecidableEq, Repr

/-- `Vector3.addVectors`. -/
def vadd (a b : Vec3) : Vec3 := ⟨a.x + b.x, a.y + b.y, a.z + b.z⟩

/-- `Vector3.subVectors`. -/
def vsub (a b : Vec3) : Vec3 := ⟨a.x - b.x, a.y - b.y, a.z - b.z⟩

/-- `Vector3.multiplyScalar`. -/
def vscale (c : ℚ) (a : Vec3) : Vec3 := ⟨c * a.x, c * a.y, c * a.z⟩

/-- `Vector3.dot`. -/
def vdot (a b : Vec3) : ℚ := a.x * b.x + a.y * b.y + a.z * b.z

/-- `Vector3.cross` / `crossVectors`. -/
def vcross (a b : Vec3) : Vec3 :=
  ⟨a.y * b.z - a.z * b.y, a.z * b.x - a.x * b.z, a.x * b.y - a.y * b.x⟩

/-- `Vector3.lengthSq`. -/
def vnormSq (a : Vec3) : ℚ := a.x * a.x + a.y * a.y + a.z * a.z

/-- `Vector3.lerpVectors(a, b, t)`: componentwise `a + (b - a) * t`. -/
def vlerp (a b : Vec3) (t : ℚ) : Vec3 :=
  ⟨a.x + (b.x - a.x) * t, a.y + (b.y - a.y) * t, a.z + (b.z - a.z) * t⟩

/-- Largest `k ≤ fuel` with `k * k ≤ n` (the integer square root when
called with `fuel = n`); a simple downward scan so that the kernel can
evaluate it. -/
def natSqrtFuel : ℕ → ℕ → ℕ
  | 0, _ => 0
  | k + 1, n => if (k + 1) * (k + 1) ≤ n then k + 1 else natSqrtFuel k n

/-- Integer square root (exact on perfect squares). -/
def natSqrt (n : ℕ) : ℕ := natSqrtFuel n n

/-- Exact-rational stand-in for `Math.sqrt`: exact whenever numerator and
denominator of the (nonnegative) radicand are perfect squares, which holds
at every concrete evaluation any theorem below depends on.  Zero iff the
radicand is zero (for nonnegative inputs), matching `Math.sqrt`. -/
def ratSqrt (q : ℚ) : ℚ := (natSqrt q.num.toNat : ℚ) / (natSqrt q.den : ℚ)

/-- `Vector3.normalize`: `divideScalar(length() || 1)` — a zero vector is
returned unchanged. -/
def vnormalize (a : Vec3) : Vec3 :=
  let l := ratSqrt (vnormSq a)
  if l = 0 then a else vscale (1 / l) a

/-- Embeds `THREE.Quaternion`, stored as (x, y, z, w). -/
structure Quat where
  x : ℚ
  y : ℚ
  z : ℚ
  w : ℚ
deriving DecidableEq, Repr

/-- The identity quaternion (`new THREE.Quaternion()`). -/
def qid : Quat := ⟨0, 0, 0, 1⟩

/-- `Quaternion.multiplyQuaternions(a, b)` (Hamilton product). -/
def qmul (a b : Quat) : Quat :=
  ⟨a.x * b.w + a.w * b.x + a.y * b.z - a.z * b.y,
   a.y * b.w + a.w * b.y + a.z * b.x - a.x * b.z,
   a.z * b.w + a.w * b.z + a.x * b.y - a.y * b.x,
   a.w * b.w - a.x * b.x - a.y * b.y - a.z * b.z⟩

/-- `Quaternion.invert`, which for three.js is conjugation (the quaternion
is assumed unit-length by the library). -/
def qconj (a : Quat) : Quat := ⟨-a.x, -a.y, -a.z, a.w⟩

/-- `Quaternion.lengthSq`. -/
def qnormSq (a : Quat) : ℚ := a.x * a.x + a.y * a.y + a.z * a.z + a.w * a.w

/-- Scalar multiple of a quaternion (used to state facts about the
normalized quaternion without evaluating a square root). -/
def qsmul (c : ℚ) (a : Quat) : Quat := ⟨c * a.x, c * a.y, c * a.z, c * a.w⟩

/-- The true quaternion inverse `conj(q) / |q|²` (equal to `qconj` exactly
on unit quaternions). -/
def qinv (a : Quat) : Quat := qsmul (1 / qnormSq a) (qconj a)

/-- `Quaternion.normalize`: zero length yields the identity, otherwise
divide by the length. -/
def qnormalize (a : Quat) : Quat :=
  let l := ratSqrt (qnormSq a)
  if l = 0 then qid else qsmul (1 / l) a

/-- The quaternion `Quaternion.setFromUnitVectors` builds before its final
`normalize()` call: in the generic branch the vector part is
`cross(vFrom, vTo)` and the scalar part is `1 + dot(vFrom, vTo)`; the
antiparallel branch (`r < Number.EPSILON`, exactly `r ≤ 0` in exact
arithmetic) picks an arbitrary axis perpendicular to `vFrom`. -/
def setFromUnitVectorsRaw (vFrom vTo : Vec3) : Quat :=
  let r := vdot vFrom vTo + 1
  if r ≤ 0 then
    if |vFrom.x| > |vFrom.z| then ⟨-vFrom.y, vFrom.x, 0, 0⟩
    else ⟨0, -vFrom.z, vFrom.y, 0⟩
  else
    ⟨(vcross vFrom vTo).x, (vcross vFrom vTo).y, (vcross vFrom vTo).z, r⟩

/-- `Quaternion.setFromUnitVectors` (raw construction then `normalize`). -/
def setFromUnitVectors (vFrom vTo : Vec3) : Quat :=
  qnormalize (setFromUnitVectorsRaw vFrom vTo)

/-- `Vector3.applyQuaternion` (three.js formula
`v + 2 w (q × v) + 2 q × (q × v)`, valid for unit quaternions). -/
def vapplyQuat (q : Quat) (v : Vec3) : Vec3 :=
  let qv : Vec3 := ⟨q.x, q.y, q.z⟩
  let t := vscale 2 (vcross qv v)
  vadd (vadd v (vscale q.w t)) (vcross qv t)

/-! ## Landmark smoother (`smoothFrames`) -/

/-- One landmark of the smoothing step:
`S_t = alpha * Y_t + (1 - alpha) * S_{t-1}` per coordinate axis, with
`visibility` carried through from the current raw sample. -/
def smoothLandmark (alpha : ℚ) (prev curr : Landmark) : Landmark :=
  ⟨alpha * curr.x + (1 - alpha) * prev.x,
   alpha * curr.y + (1 - alpha) * prev.y,
   alpha * curr.z + (1 - alpha) * prev.z,
   curr.visibility⟩

/-- The inner `for j` loop of `smoothFrames`: iterate over the current
frame's landmarks, reading `previousLandmarks[j]` in step.  The source
indexes `previousLandmarks` unchecked; callers guarantee equal landmark
counts (spec §4.1 precondition), under which the default is never
consulted. -/
def smoothLms (alpha : ℚ) : List Landmark → List Landmark → List Landmark
  | _, [] => []
  | prev, c :: cs =>
    smoothLandmark alpha (prev.headD ⟨0, 0, 0, none⟩) c ::
      smoothLms alpha prev.tail cs

/-- One iteration of the outer frame loop of `smoothFrames`. -/
def smoothStep (alpha : ℚ) (prev : List Landmark) (c : Frame) : Frame :=
  ⟨c.timestamp, smoothLms alpha prev c.landmarks⟩

/-- The tail of the frame loop, threading `previousLandmarks` (which the
source reassigns to the just-emitted smoothed landmarks). -/
def smoothGo (alpha : ℚ) (prev : List Landmark) : List Frame → List Frame
  | [] => []
  | c :: cs =>
    let s := smoothStep alpha prev c
    s :: smoothGo alpha s.landmarks cs

/-- The landmark deep copy `l => ({...l})` applied to the first frame. -/
def copyLandmark (l : Landmark) : Landmark := ⟨l.x, l.y, l.z, l.visibility⟩

/-- Embeds `smoothFrames` (exponential moving average over frames). -/
def smoothFrames (frames : List Frame) (alpha : ℚ) : List Frame :=
  match frames with
  | [] => []
  | f0 :: rest =>
    let first : Frame := ⟨f0.timestamp, f0.landmarks.map copyLandmark⟩
    first :: smoothGo alpha first.landmarks rest

/-! ## Rotation (FBX) exporter: skeleton tables -/

/-- One entry of the FBX exporter's `boneMap` table. -/
structure FBone where
  name : String
  parent : Option String
  ref : String
deriving DecidableEq, Repr

/-- The `boneMap` table of the FBX exporter (20 Mixamo-named bones). -/
def boneMap : List FBone :=
  [⟨"mixamorig:Hips", none, "Hips"⟩,
   ⟨"mixamorig:Spine", some "mixamorig:Hips", "Spine"⟩,
   ⟨"mixamorig:Spine1", some "mixamorig:Spine", "Spine1"⟩,
   ⟨"mixamorig:Spine2", some "mixamorig:Spine1", "Spine2"⟩,
   ⟨"mixamorig:Neck", some "mixamorig:Spine2", "Neck"⟩,
   ⟨"mixamorig:Head", some "mixamorig:Neck", "Head"⟩,
   ⟨"mixamorig:LeftShoulder", some "mixamorig:Spine2", "LeftShoulder"⟩,
   ⟨"mixamorig:LeftArm", some "mixamorig:LeftShoulder", "LeftArm"⟩,
   ⟨"mixamorig:LeftForeArm", some "mixamorig:LeftArm", "LeftForeArm"⟩,
   ⟨"mixamorig:LeftHand", some "mixamorig:LeftForeArm", "LeftHand"⟩,
   ⟨"mixamorig:RightShoulder", some "mixamorig:Spine2", "RightShoulder"⟩,
   ⟨"mixamorig:RightArm", some "mixamorig:RightShoulder", "RightArm"⟩,
   ⟨"mixamorig:RightForeArm", some "mixamorig:RightArm", "RightForeArm"⟩,
   ⟨"mixamorig:RightHand", some "mixamorig:RightForeArm", "RightHand"⟩,
   ⟨"mixamorig:LeftUpLeg", some "mixamorig:Hips", "LeftUpLeg"⟩,
   ⟨"mixamorig:LeftLeg", some "mixamorig:LeftUpLeg", "LeftLeg"⟩,
   ⟨"mixamorig:LeftFoot", some "mixamorig:LeftLeg", "LeftFoot"⟩,
   ⟨"mixamorig:RightUpLeg", some "mixamorig:Hips", "RightUpLeg"⟩,
   ⟨"mixamorig:RightLeg", some "mixamorig:RightUpLeg", "RightLeg"⟩,
   ⟨"mixamorig:RightFoot", some "mixamorig:RightLeg", "RightFoot"⟩]

/-- The `tPoseDirections` table: expected bone directions in the canonical
rest pose.  The clavicle and upper-leg entries are written in the source as
`new THREE.Vector3(±1, ±1, 0).normalize()`; `vnormalize` is applied exactly
as the source does (see the note on `ratSqrt` — no theorem below depends on
the numeric value of those four diagonal entries). -/
def tPoseDirections : List (String × Vec3) :=
  [("mixamorig:Spine", ⟨0, 1, 0⟩),
   ("mixamorig:Spine1", ⟨0, 1, 0⟩),
   ("mixamorig:Spine2", ⟨0, 1, 0⟩),
   ("mixamorig:Neck", ⟨0, 1, 0⟩),
   ("mixamorig:Head", ⟨0, 1, 0⟩),
   ("mixamorig:LeftShoulder", vnormalize ⟨1, 1, 0⟩),
   ("mixamorig:LeftArm", ⟨1, 0, 0⟩),
   ("mixamorig:LeftForeArm", ⟨1, 0, 0⟩),
   ("mixamorig:LeftHand", ⟨1, 0, 0⟩),
   ("mixamorig:RightShoulder", vnormalize ⟨-1, 1, 0⟩),
   ("mixamorig:RightArm", ⟨-1, 0, 0⟩),
   ("mixamorig:RightForeArm", ⟨-1, 0, 0⟩),
   ("mixamorig:RightHand", ⟨-1, 0, 0⟩),
   ("mixamorig:LeftUpLeg", vnormalize ⟨1, -1, 0⟩),
   ("mixamorig:LeftLeg", ⟨0, -1, 0⟩),
   ("mixamorig:LeftFoot", ⟨0, 0, 1⟩),
   ("mixamorig:RightUpLeg", vnormalize ⟨-1, -1, 0⟩),
   ("mixamorig:RightLeg", ⟨0, -1, 0⟩),
   ("mixamorig:RightFoot", ⟨0, 0, 1⟩)]

/-! ## Rotation exporter: per-frame positions and orientations -/

/-- The FBX exporter's `getVec` helper: scale MediaPipe meters to
centimeters, mirroring X and flipping Y.  The source indexes `lm[idx]`
with no bounds check; `getVecOpt` below models the resulting fault, while
this total version (whose default is never consulted under the 33-slot
input contract of spec §6, hypothesized by every theorem that uses it)
models the defined executions. -/
def getVec (lm : List Landmark) (idx : ℕ) : Vec3 :=
  let l := lm.getD idx ⟨0, 0, 0, none⟩
  ⟨-l.x * 100, -l.y * 100, l.z * 100⟩

/-- Faithful model of `getVec`'s unchecked `lm[idx]` access: an absent
index makes `lm[idx]` `undefined` and the subsequent `.x` read throw, so
the result is `none` (a propagated fault) rather than any vector. -/
def getVecOpt (lm : List Landmark) (idx : ℕ) : Option Vec3 :=
  (lm.get? idx).map fun l => ⟨-l.x * 100, -l.y * 100, l.z * 100⟩

/-- The per-frame `positions` record of the FBX exporter (bone name to
current world position), including the derived virtual joints. -/
def positionsList (f : Frame) : List (String × Vec3) :=
  let lm := f.landmarks
  let lShoulder := getVec lm MP_LEFT_SHOULDER
  let rShoulder := getVec lm MP_RIGHT_SHOULDER
  let lHip := getVec lm MP_LEFT_HIP
  let rHip := getVec lm MP_RIGHT_HIP
  let hipsPos := vscale (1/2) (vadd lHip rHip)
  let neckPos := vscale (1/2) (vadd lShoulder rShoulder)
  let spinePos := vlerp hipsPos neckPos (3/10)
  let spine1Pos := vlerp hipsPos neckPos (6/10)
  let spine2Pos := vlerp hipsPos neckPos (9/10)
  let headPos := getVec lm MP_NOSE
  [("mixamorig:Hips", hipsPos),
   ("mixamorig:Spine", spinePos),
   ("mixamorig:Spine1", spine1Pos),
   ("mixamorig:Spine2", spine2Pos),
   ("mixamorig:Neck", neckPos),
   ("mixamorig:Head", headPos),
   ("mixamorig:LeftShoulder", lShoulder),
   ("mixamorig:LeftArm", getVec lm MP_LEFT_ELBOW),
   ("mixamorig:LeftForeArm", getVec lm MP_LEFT_WRIST),
   ("mixamorig:LeftHand", vadd (getVec lm MP_LEFT_WRIST) ⟨5, 0, 0⟩),
   ("mixamorig:RightShoulder", rShoulder),
   ("mixamorig:RightArm", getVec lm MP_RIGHT_ELBOW),
   ("mixamorig:RightForeArm", getVec lm MP_RIGHT_WRIST),
   ("mixamorig:RightHand", vadd (getVec lm MP_RIGHT_WRIST) ⟨-5, 0, 0⟩),
   ("mixamorig:LeftUpLeg", lHip),
   ("mixamorig:LeftLeg", getVec lm MP_LEFT_KNEE),
   ("mixamorig:LeftFoot", getVec lm MP_LEFT_ANKLE),
   ("mixamorig:RightUpLeg", rHip),
   ("mixamorig:RightLeg", getVec lm MP_RIGHT_KNEE),
   ("mixamorig:RightFoot", getVec lm MP_RIGHT_ANKLE)]

/-- `positions[name]` lookup; every name the exporter looks up is a key of
the record, so the default is never consulted. -/
def framePositions (f : Frame) (name : String) : Vec3 :=
  ((positionsList f).lookup name).getD ⟨0, 0, 0⟩

/-- `boneMap.find(child => child.parent === boneName)`: the primary child
defining a bone's direction. -/
def primaryChild (name : String) : Option FBone :=
  boneMap.find? fun c => c.parent = some name

/-- The `globalQuats` computation for one bone of one frame: identity if
the bone has no primary child; otherwise the shortest-arc rotation from
the rest direction (`tPoseDirections[boneName] || (0,1,0)`) to the
current normalized child-minus-parent direction. -/
def frameGlobalQuat (f : Frame) (name : String) : Quat :=
  match primaryChild name with
  | none => qid
  | some child =>
    let vCurrent :=
      vnormalize (vsub (framePositions f child.name) (framePositions f name))
    let vRest := (tPoseDirections.lookup name).getD ⟨0, 1, 0⟩
    setFromUnitVectors vRest vCurrent

/-- The local (parent-relative) quaternion the exporter pushes:
`qLocal = qParentGlobal⁻¹ * qGlobal`, where the source's `invert()` is
conjugation and `premultiply` is left multiplication; root bones keep the
global value. -/
def frameLocalQuat (f : Frame) (b : FBone) : Quat :=
  match b.parent with
  | none => frameGlobalQuat f b.name
  | some p => qmul (qconj (frameGlobalQuat f p)) (frameGlobalQuat f b.name)

/-! ## Rotation exporter: keyframe tracks and clip -/

/-- A keyframe track handed to the external backend
(`THREE.QuaternionKeyframeTrack` / `THREE.VectorKeyframeTrack`):
target channel name, key times, flattened values, and whether it is a
quaternion track. -/
structure KTrack where
  name : String
  times : List ℚ
  values : List ℚ
  isQuaternion : Bool
deriving DecidableEq, Repr

/-- The `times` array shared by every track: the frame timestamps. -/
def fbxTimes (frames : List Frame) : List ℚ := frames.map (·.timestamp)

/-- `tracksData[b.name].rot` after the frame loop: the source pushes the
four local-quaternion components per frame for every bone, in frame order,
which equals this flat map. -/
def rotFlat (frames : List Frame) (b : FBone) : List ℚ :=
  frames.flatMap fun f =>
    let q := frameLocalQuat f b
    [q.x, q.y, q.z, q.w]

/-- `tracksData[b.name].pos` after the frame loop: the source pushes a
position only for the root (`mixamorig:Hips`), lifted by +100 on Y. -/
def posFlat (frames : List Frame) (b : FBone) : List ℚ :=
  frames.flatMap fun f =>
    if b.name = "mixamorig:Hips" then
      let p := framePositions f "mixamorig:Hips"
      [p.x, p.y + 100, p.z]
    else []

/-- The track list built from `tracksData`: per bone (in `boneMap` order)
a quaternion track when its flat rotation array is non-empty, then a
position track when its flat position array is non-empty. -/
def generateFBXTracks (frames : List Frame) : List KTrack :=
  boneMap.flatMap fun b =>
    (if rotFlat frames b ≠ [] then
      [⟨b.name ++ ".quaternion", fbxTimes frames, rotFlat frames b, true⟩]
     else []) ++
    (if posFlat frames b ≠ [] then
      [⟨b.name ++ ".position", fbxTimes frames, posFlat frames b, false⟩]
     else [])

/-- `THREE.AnimationClip('MixamoMotion', -1, tracks)`. -/
structure AnimClip where
  name : String
  duration : ℤ
  tracks : List KTrack
deriving DecidableEq, Repr

/-- Embeds `generateFBX` up to the hand-off to the external serialization
backend (`FBXExporter.parse`, out of scope per spec §1): an empty frame
sequence throws `"No frames to export"` before any scene or track is
built; otherwise the clip handed to the backend is returned. -/
def generateFBX (frames : List Frame) : Except String AnimClip :=
  if frames = [] then Except.error "No frames to export"
  else Except.ok ⟨"MixamoMotion", -1, generateFBXTracks frames⟩

/-! ## Positional (BVH) exporter -/

/-- One entry of the BVH exporter's `joints` table; `mpIndex` keeps the
source's `-1` sentinel for virtual joints. -/
structure BJoint where
  name : String
  parent : Option String
  mpIndex : ℤ
deriving DecidableEq, Repr

/-- The `joints` table of the BVH exporter (15 bones). -/
def joints : List BJoint :=
  [⟨"Hips", none, -1⟩,
   ⟨"Spine", some "Hips", -1⟩,
   ⟨"Head", some "Spine", (MP_NOSE : ℤ)⟩,
   ⟨"LeftShoulder", some "Spine", (MP_LEFT_SHOULDER : ℤ)⟩,
   ⟨"LeftElbow", some "LeftShoulder", (MP_LEFT_ELBOW : ℤ)⟩,
   ⟨"LeftWrist", some "LeftElbow", (MP_LEFT_WRIST : ℤ)⟩,
   ⟨"RightShoulder", some "Spine", (MP_RIGHT_SHOULDER : ℤ)⟩,
   ⟨"RightElbow", some "RightShoulder", (MP_RIGHT_ELBOW : ℤ)⟩,
   ⟨"RightWrist", some "RightElbow", (MP_RIGHT_WRIST : ℤ)⟩,
   ⟨"LeftHip", some "Hips", (MP_LEFT_HIP : ℤ)⟩,
   ⟨"LeftKnee", some "LeftHip", (MP_LEFT_KNEE : ℤ)⟩,
   ⟨"LeftAnkle", some "LeftKnee", (MP_LEFT_ANKLE : ℤ)⟩,
   ⟨"RightHip", some "Hips", (MP_RIGHT_HIP : ℤ)⟩,
   ⟨"RightKnee", some "RightHip", (MP_RIGHT_KNEE : ℤ)⟩,
   ⟨"RightAnkle", some "RightKnee", (MP_RIGHT_ANKLE : ℤ)⟩]

/-- The BVH exporter's `getPos` helper: the bounds check substitutes the
zero vector for out-of-range indices (including the `-1` sentinel);
otherwise mirror X, flip Y and scale by 100 as in `getVec`. -/
def getPos (lm : List Landmark) (idx : ℤ) : Vec3 :=
  if idx < 0 ∨ (lm.length : ℤ) ≤ idx then ⟨0, 0, 0⟩
  else
    let l := lm.getD idx.toNat ⟨0, 0, 0, none⟩
    ⟨-l.x * 100, -l.y * 100, l.z * 100⟩

/-- The per-frame `positions` record of the BVH exporter: virtual `Hips`
and `Spine` midpoints plus direct landmark positions. -/
def bvhPositionsList (f : Frame) : List (String × Vec3) :=
  let lm := f.landmarks
  let lHip := getPos lm (MP_LEFT_HIP : ℤ)
  let rHip := getPos lm (MP_RIGHT_HIP : ℤ)
  let lShoulder := getPos lm (MP_LEFT_SHOULDER : ℤ)
  let rShoulder := getPos lm (MP_RIGHT_SHOULDER : ℤ)
  let hips : Vec3 := ⟨(lHip.x + rHip.x) / 2, (lHip.y + rHip.y) / 2,
    (lHip.z + rHip.z) / 2⟩
  let spine : Vec3 := ⟨(lShoulder.x + rShoulder.x) / 2,
    (lShoulder.y + rShoulder.y) / 2, (lShoulder.z + rShoulder.z) / 2⟩
  [("Hips", hips),
   ("Spine", spine),
   ("Head", getPos lm (MP_NOSE : ℤ)),
   ("LeftShoulder", lShoulder),
   ("LeftElbow", getPos lm (MP_LEFT_ELBOW : ℤ)),
   ("LeftWrist", getPos lm (MP_LEFT_WRIST : ℤ)),
   ("RightShoulder", rShoulder),
   ("RightElbow", getPos lm (MP_RIGHT_ELBOW : ℤ)),
   ("RightWrist", getPos lm (MP_RIGHT_WRIST : ℤ)),
   ("LeftHip", lHip),
   ("LeftKnee", getPos lm (MP_LEFT_KNEE : ℤ)),
   ("LeftAnkle", getPos lm (MP_LEFT_ANKLE : ℤ)),
   ("RightHip", rHip),
   ("RightKnee", getPos lm (MP_RIGHT_KNEE : ℤ)),
   ("RightAnkle", getPos lm (MP_RIGHT_ANKLE : ℤ))]

/-- `positions[jointName] || {x:0, y:0, z:0}` of the BVH motion writer
(the zero fallback is in the source). -/
def bvhPos (f : Frame) (name : String) : Vec3 :=
  ((bvhPositionsList f).lookup name).getD ⟨0, 0, 0⟩

/-! ## Text formatting helpers (embedding JS string primitives) -/

/-- Decimal digit characters of a natural number, most significant first
(fuel-based embedding of JS number-to-string; the fuel is always
sufficient since `n < 10 ^ (fuel)` at every call). -/
def natDigits : ℕ → ℕ → List Char
  | 0, _ => []
  | fuel + 1, n =>
    if n < 10 then [Char.ofNat (48 + n)]
    else natDigits fuel (n / 10) ++ [Char.ofNat (48 + n % 10)]

/-- JS `String(n)` for a natural number. -/
def natToStr (n : ℕ) : String := ⟨natDigits (n + 1) n⟩

/-- Left-pad a digit list with `'0'` to the given width. -/
def padZeros (width : ℕ) (s : List Char) : List Char :=
  List.replicate (width - s.length) '0' ++ s

/-- `Number.prototype.toFixed(d)` on a nonnegative rational: round
half-up at the `d`-th decimal and print with exactly `d` fraction
digits. -/
def toFixedNonneg (d : ℕ) (q : ℚ) : String :=
  let scaled : ℕ := (⌊q * (10 : ℚ) ^ d + 1 / 2⌋).toNat
  let intPart := scaled / 10 ^ d
  let fracPart := scaled % 10 ^ d
  if d = 0 then natToStr intPart
  else
    ⟨(natToStr intPart).data ++ '.' ::
      padZeros d (natDigits (fracPart + 1) fracPart)⟩

/-- Exact-rational model of `Number.prototype.toFixed(d)`: negative
values format their magnitude behind a sign, as the JS algorithm does
(binary-double rounding artifacts are not modelled). -/
def toFixedQ (d : ℕ) (q : ℚ) : String :=
  if q < 0 then ⟨'-' :: (toFixedNonneg d (-q)).data⟩ else toFixedNonneg d q

/-- Whitespace as the trim below recognizes (the generated text only ever
contains spaces and newlines). -/
def isWs (c : Char) : Bool := c = ' ' ∨ c = '\n'

/-- Drop trailing whitespace of a character list. -/
def dropTrailingWs (l : List Char) : List Char :=
  (l.reverse.dropWhile isWs).reverse

/-- Embeds `String.prototype.trim`: strip leading and trailing
whitespace. -/
def jsTrim (s : String) : String :=
  ⟨dropTrailingWs (s.data.dropWhile isWs)⟩

/-- Concatenation of a list of strings (the string a JS loop accumulates
by `+=` over the list). -/
def strConcat (l : List String) : String := ⟨(l.map String.data).flatten⟩

/-- Join tokens with single spaces (no trailing separator); used to state
what the trimmed motion lines look like. -/
def sepJoin : List String → String
  | [] => ""
  | [t] => t
  | t :: ts => t ++ " " ++ sepJoin ts

/-! ## BVH text generation -/

/-- `"  ".repeat(indentation)` — two spaces per nesting level. -/
def indentStr (n : ℕ) : String := ⟨(List.replicate n [' ', ' ']).flatten⟩

/-- The `End Site` block a childless joint emits; `ind` is the
indentation at which the block's header is written. -/
def endSiteBlock (ind : ℕ) : String :=
  indentStr ind ++ "End Site\n" ++ indentStr ind ++ "\x7b\n" ++
  indentStr (ind + 1) ++ "OFFSET 0.00 0.00 0.00\n" ++ indentStr ind ++ "\x7d\n"

/-- The recursive `writeJoint` of the BVH hierarchy block.  The source
recurses through the mutually-referencing `joints` table; the fuel bounds
the recursion depth (any value at least the tree depth, here called with
the table length, yields the full traversal).  The mutable `indentation`
counter becomes the `ind` parameter: it is incremented for the body and
restored for the closing brace exactly as the source's `++`/`--` pair. -/
def writeJoint : ℕ → ℕ → String → String
  | 0, _, _ => ""
  | fuel + 1, ind, name =>
    match joints.find? (fun j => j.name = name) with
    | none => ""
    | some j =>
      let header :=
        if j.parent = none then "ROOT " ++ name ++ "\n\x7b\n"
        else indentStr ind ++ "JOINT " ++ name ++ "\n" ++ indentStr ind ++ "\x7b\n"
      let body :=
        indentStr (ind + 1) ++ "OFFSET 0.00 0.00 0.00\n" ++
        indentStr (ind + 1) ++
        "CHANNELS 6 Xposition Yposition Zposition Zrotation Xrotation Yrotation\n"
      let children := joints.filter fun c => c.parent = some name
      let mid :=
        if children.isEmpty then endSiteBlock (ind + 1)
        else strConcat (children.map fun c => writeJoint fuel (ind + 1) c.name)
      header ++ body ++ mid ++ indentStr ind ++ "\x7d\n"

/-- The six values one bone contributes to a motion line: three positions
to four decimals, then the three literal zero rotations, each followed by
a space. -/
def boneLine (f : Frame) (name : String) : String :=
  let p := bvhPos f name
  toFixedQ 4 p.x ++ " " ++ toFixedQ 4 p.y ++ " " ++ toFixedQ 4 p.z ++
    " 0.00 0.00 0.00 "

/-- The recursive `writeData` accumulating one motion line in hierarchy
pre-order (fuel as in `writeJoint`). -/
def writeData (f : Frame) : ℕ → String → String
  | 0, _ => ""
  | fuel + 1, name =>
    boneLine f name ++
      strConcat ((joints.filter fun c => c.parent = some name).map
        fun c => writeData f fuel c.name)

/-- The complete hierarchy block (`HIERARCHY` keyword plus the recursive
descent from `Hips`). -/
def bvhHierarchyText : String :=
  "HIERARCHY\n" ++ writeJoint joints.length 0 "Hips"

/-- One trimmed motion line. -/
def bvhMotionLine (f : Frame) : String :=
  jsTrim (writeData f joints.length "Hips")

/-- Embeds `generateBVH`: empty input returns the empty string (the
source's early `return ""`); otherwise the hierarchy block, the `MOTION`
header with frame count and frame time `(1/30).toFixed(6)`, and one
trimmed line per frame. -/
def generateBVH (frames : List Frame) : String :=
  if frames = [] then ""
  else
    bvhHierarchyText ++ "MOTION\n" ++
    "Frames: " ++ natToStr frames.length ++ "\n" ++
    "Frame Time: " ++ toFixedQ 6 (1 / 30) ++ "\n" ++
    strConcat (frames.map fun f => bvhMotionLine f ++ "\n")

/-- The pre-order traversal of the BVH hierarchy (root first, children in
declaration order) — the canonical emission order. -/
def bvhPreorder : List String :=
  ["Hips", "Spine", "Head", "LeftShoulder", "LeftElbow", "LeftWrist",
   "RightShoulder", "RightElbow", "RightWrist", "LeftHip", "LeftKnee",
   "LeftAnkle", "RightHip", "RightKnee", "RightAnkle"]

/-- The six numeric tokens one bone contributes to a motion line. -/
def boneTokens (f : Frame) (name : String) : List String :=
  let p := bvhPos f name
  [toFixedQ 4 p.x, toFixedQ 4 p.y, toFixedQ 4 p.z, "0.00", "0.00", "0.00"]

/-- The numeric tokens of one motion line, per bone in pre-order: three
4-decimal positions then three zero rotations. -/
def motionTokens (f : Frame) : List String :=
  bvhPreorder.flatMap (boneTokens f)

/-- Append a trailing space to every token and concatenate — the raw
(untrimmed) shape of the accumulated motion line. -/
def trailJoin (toks : List String) : String :=
  strConcat (toks.map fun t => t ++ " ")

/-- The token list `writeData` emits from a given joint with the given
fuel (the recursion mirror of `writeData`, used to relate the accumulated
line to its token decomposition). -/
def preTokensAux (f : Frame) : ℕ → String → List String
  | 0, _ => []
  | fuel + 1, name =>
    boneTokens f name ++
      ((joints.filter fun c => c.parent = some name).flatMap fun c =>
        preTokensAux f fuel c.name)

/-- Default landmark used to state indexed facts via `List.getD`. -/
def defaultLandmark : Landmark := ⟨0, 0, 0, none⟩

/-- Default frame used to state indexed facts via `List.getD`. -/
def defaultFrame : Frame := ⟨0, []⟩

/-- A frame whose 33 landmarks all sit at the origin (the 33-slot
MediaPipe layout of spec §6). -/
def demoFrame : Frame := ⟨0, List.replicate 33 ⟨0, 0, 0, none⟩⟩

/-- A one-element frame list used to evaluate the exporters concretely. -/
def demoFrames : List Frame := [demoFrame]

/-- Two frames with equal landmark counts and distinct coordinates, used
to evaluate the smoother concretely. -/
def smoothDemoFrames : List Frame :=
  [⟨0, [⟨0, 0, 0, none⟩]⟩, ⟨1/30, [⟨1, 2, 3, some (1/2)⟩]⟩]

/-- Two frames whose single landmark does not move, exhibiting the
degenerate case of the strict-betweenness property. -/
def stillFrames : List Frame :=
  [⟨0, [⟨1, 1, 1, none⟩]⟩, ⟨1/30, [⟨1, 1, 1, none⟩]⟩]

/-! ## Helper lemmas -/

theorem qsmul_one (q : Quat) : qsmul 1 q = q := by
  simp [qsmul]

theorem qmul_qconj_cancel (q r : Quat) :
    qmul q (qmul (qconj q) r) = qsmul (qnormSq q) r := by
  cases q; cases r
  simp only [qmul, qconj, qsmul, qnormSq, Quat.mk.injEq]
  refine ⟨by ring, by ring, by ring, by ring⟩

/-! ## Claim C1 (empty input handling) -/

/-- C1 (corrected).  On an empty frame sequence `generateFBX` throws
`"No frames to export"` before building any track or touching the
backend; `generateBVH`, however, does not fail at all: it returns the
empty string. -/
theorem C1_empty_input (frames : List Frame) (h : frames = []) :
    generateFBX frames = Except.error "No frames to export" ∧
    generateBVH frames = "" := by
  subst h
  exact ⟨rfl, rfl⟩

/-- C1 witness: the amended behavior evaluated at the empty list. -/
theorem C1_empty_input_witness :
    generateFBX [] = Except.error "No frames to export" ∧
    generateBVH [] = "" :=
  C1_empty_input [] rfl

/-- C1 counterexample: the claim says `generateBVH` fails with an
`InputError` on empty input, but the function has no failure channel and
returns the empty string normally. -/
theorem C1_counterexample : generateBVH [] = "" := rfl

/-! ## Claim C7 (missing landmark handling) -/

/-- C7 (corrected).  The positional exporter's `getPos` substitutes the
zero vector for any out-of-range index and never fails; the rotation
exporter's `getVec`, however, performs no bounds check, so an absent
landmark index faults (models as `none`, a propagated error) instead of
producing a zero vector; in range the two access regimes agree. -/
theorem C7_landmark_fallback (lm : List Landmark) (idx : ℤ) (n : ℕ) :
    ((idx < 0 ∨ (lm.length : ℤ) ≤ idx) → getPos lm idx = ⟨0, 0, 0⟩) ∧
    (lm.length ≤ n → getVecOpt lm n = none) ∧
    (n < lm.length → getVecOpt lm n = some (getVec lm n)) := by
  refine ⟨fun h => ?_, fun h => ?_, fun h => ?_⟩
  · simp [getPos, h]
  · simp [getVecOpt, List.get?_eq_none, h]
  · have hg : lm[n]? = some lm[n] := List.getElem?_eq_getElem h
    simp [getVecOpt, getVec, List.get?_eq_getElem?, List.getD_eq_getElem?_getD,
      hg]

/-- C7 witness: zero substitution for the `-1` sentinel on an empty
landmark list, and the faulting unchecked access beside it. -/
theorem C7_witness :
    getPos [] (-1) = ⟨0, 0, 0⟩ ∧ getVecOpt [] 0 = none :=
  ⟨(C7_landmark_fallback [] (-1) 0).1 (Or.inl (by decide)),
   (C7_landmark_fallback [] (-1) 0).2.1 (by decide)⟩

/-- C7 counterexample: an out-of-range index in the rotation exporter is
not replaced by the zero vector — the unchecked access faults. -/
theorem C7_counterexample :
    getVecOpt [] MP_NOSE = none ∧ getVecOpt [] MP_NOSE ≠ some ⟨0, 0, 0⟩ :=
  ⟨rfl, by decide⟩

/-! ## Claim C10 (forearm orientation is always identity) -/

/-- C10 (confirmed).  Each hand position is the corresponding wrist
position plus the fixed offset `(±5, 0, 0)`, so the forearm's
current-frame direction is exactly its rest direction `(±1, 0, 0)` and
the computed world-space forearm orientation is the identity quaternion
on every frame — the forearm never carries observed elbow-to-wrist
motion. -/
theorem C10_forearm_identity (f : Frame) (h : 33 ≤ f.landmarks.length) :
    frameGlobalQuat f "mixamorig:LeftForeArm" = qid ∧
    frameGlobalQuat f "mixamorig:RightForeArm" = qid := by
  constructor
  · have h1 : vsub (framePositions f "mixamorig:LeftHand")
        (framePositions f "mixamorig:LeftForeArm") = ⟨5, 0, 0⟩ := by
      show vsub (vadd (getVec f.landmarks MP_LEFT_WRIST) ⟨5, 0, 0⟩)
          (getVec f.landmarks MP_LEFT_WRIST) = ⟨5, 0, 0⟩
      simp [vadd, vsub]
    show setFromUnitVectors
        ((tPoseDirections.lookup "mixamorig:LeftForeArm").getD ⟨0, 1, 0⟩)
        (vnormalize (vsub (framePositions f "mixamorig:LeftHand")
          (framePositions f "mixamorig:LeftForeArm"))) = qid
    rw [h1]
    with_unfolding_all rfl
  · have h1 : vsub (framePositions f "mixamorig:RightHand")
        (framePositions f "mixamorig:RightForeArm") = ⟨-5, 0, 0⟩ := by
      show vsub (vadd (getVec f.landmarks MP_RIGHT_WRIST) ⟨-5, 0, 0⟩)
          (getVec f.landmarks MP_RIGHT_WRIST) = ⟨-5, 0, 0⟩
      simp [vadd, vsub]
    show setFromUnitVectors
        ((tPoseDirections.lookup "mixamorig:RightForeArm").getD ⟨0, 1, 0⟩)
        (vnormalize (vsub (framePositions f "mixamorig:RightHand")
          (framePositions f "mixamorig:RightForeArm"))) = qid
    rw [h1]
    with_unfolding_all rfl

/-- C10 witness: the forearm identity orientation evaluated on a concrete
33-landmark frame. -/
theorem C10_witness :
    33 ≤ demoFrame.landmarks.length ∧
    frameGlobalQuat demoFrame "mixamorig:LeftForeArm" = qid ∧
    frameGlobalQuat demoFrame "mixamorig:RightForeArm" = qid :=
  ⟨by decide, (C10_forearm_identity demoFrame (by decide)).1,
   (C10_forearm_identity demoFrame (by decide)).2⟩

/-! ## Claim C8 (virtual joint derivation) -/

/-- C8 (confirmed).  Per frame the virtual joints are pure functions of
that frame's landmarks: the hip center is the midpoint of the two hips,
the neck/shoulder center is the midpoint of the two shoulders, and the
three spine points are the affine interpolations of hip and neck centers
at the fractions 0.3, 0.6 and 0.9; the BVH exporter derives its `Hips`
and `Spine` virtual joints as the same two midpoints. -/
theorem C8_virtual_joints (f : Frame) (h : 33 ≤ f.landmarks.length) :
    framePositions f "mixamorig:Hips" =
      ⟨((getVec f.landmarks MP_LEFT_HIP).x + (getVec f.landmarks MP_RIGHT_HIP).x) / 2,
       ((getVec f.landmarks MP_LEFT_HIP).y + (getVec f.landmarks MP_RIGHT_HIP).y) / 2,
       ((getVec f.landmarks MP_LEFT_HIP).z + (getVec f.landmarks MP_RIGHT_HIP).z) / 2⟩ ∧
    framePositions f "mixamorig:Neck" =
      ⟨((getVec f.landmarks MP_LEFT_SHOULDER).x + (getVec f.landmarks MP_RIGHT_SHOULDER).x) / 2,
       ((getVec f.landmarks MP_LEFT_SHOULDER).y + (getVec f.landmarks MP_RIGHT_SHOULDER).y) / 2,
       ((getVec f.landmarks MP_LEFT_SHOULDER).z + (getVec f.landmarks MP_RIGHT_SHOULDER).z) / 2⟩ ∧
    framePositions f "mixamorig:Spine" =
      vadd (vscale (7/10) (framePositions f "mixamorig:Hips"))
        (vscale (3/10) (framePositions f "mixamorig:Neck")) ∧
    framePositions f "mixamorig:Spine1" =
      vadd (vscale (2/5) (framePositions f "mixamorig:Hips"))
        (vscale (3/5) (framePositions f "mixamorig:Neck")) ∧
    framePositions f "mixamorig:Spine2" =
      vadd (vscale (1/10) (framePositions f "mixamorig:Hips"))
        (vscale (9/10) (framePositions f "mixamorig:Neck")) ∧
    bvhPos f "Hips" =
      ⟨((getPos f.landmarks 23).x + (getPos f.landmarks 24).x) / 2,
       ((getPos f.landmarks 23).y + (getPos f.landmarks 24).y) / 2,
       ((getPos f.landmarks 23).z + (getPos f.landmarks 24).z) / 2⟩ ∧
    bvhPos f "Spine" =
      ⟨((getPos f.landmarks 11).x + (getPos f.landmarks 12).x) / 2,
       ((getPos f.landmarks 11).y + (getPos f.landmarks 12).y) / 2,
       ((getPos f.landmarks 11).z + (getPos f.landmarks 12).z) / 2⟩ := by
  have eh : framePositions f "mixamorig:Hips" =
      vscale (1/2) (vadd (getVec f.landmarks MP_LEFT_HIP)
        (getVec f.landmarks MP_RIGHT_HIP)) := rfl
  have en : framePositions f "mixamorig:Neck" =
      vscale (1/2) (vadd (getVec f.landmarks MP_LEFT_SHOULDER)
        (getVec f.landmarks MP_RIGHT_SHOULDER)) := rfl
  have es : framePositions f "mixamorig:Spine" =
      vlerp (vscale (1/2) (vadd (getVec f.landmarks MP_LEFT_HIP)
          (getVec f.landmarks MP_RIGHT_HIP)))
        (vscale (1/2) (vadd (getVec f.landmarks MP_LEFT_SHOULDER)
          (getVec f.landmarks MP_RIGHT_SHOULDER))) (3/10) := rfl
  have es1 : framePositions f "mixamorig:Spine1" =
      vlerp (vscale (1/2) (vadd (getVec f.landmarks MP_LEFT_HIP)
          (getVec f.landmarks MP_RIGHT_HIP)))
        (vscale (1/2) (vadd (getVec f.landmarks MP_LEFT_SHOULDER)
          (getVec f.landmarks MP_RIGHT_SHOULDER))) (6/10) := rfl
  have es2 : framePositions f "mixamorig:Spine2" =
      vlerp (vscale (1/2) (vadd (getVec f.landmarks MP_LEFT_HIP)
          (getVec f.landmarks MP_RIGHT_HIP)))
        (vscale (1/2) (vadd (getVec f.landmarks MP_LEFT_SHOULDER)
          (getVec f.landmarks MP_RIGHT_SHOULDER))) (9/10) := rfl
  refine ⟨?_, ?_, ?_, ?_, ?_, ?_, ?_⟩
  · rw [eh]
    simp only [vscale, vadd, Vec3.mk.injEq]
    refine ⟨by ring, by ring, by ring⟩
  · rw [en]
    simp only [vscale, vadd, Vec3.mk.injEq]
    refine ⟨by ring, by ring, by ring⟩
  · rw [es, eh, en]
    simp only [vlerp, vscale, vadd, Vec3.mk.injEq]
    refine ⟨by ring, by ring, by ring⟩
  · rw [es1, eh, en]
    simp only [vlerp, vscale, vadd, Vec3.mk.injEq]
    refine ⟨by ring, by ring, by ring⟩
  · rw [es2, eh, en]
    simp only [vlerp, vscale, vadd, Vec3.mk.injEq]
    refine ⟨by ring, by ring, by ring⟩
  · show (⟨((getPos f.landmarks 23).x + (getPos f.landmarks 24).x) / 2,
        ((getPos f.landmarks 23).y + (getPos f.landmarks 24).y) / 2,
        ((getPos f.landmarks 23).z + (getPos f.landmarks 24).z) / 2⟩ : Vec3) = _
    rfl
  · show (⟨((getPos f.landmarks 11).x + (getPos f.landmarks 12).x) / 2,
        ((getPos f.landmarks 11).y + (getPos f.landmarks 12).y) / 2,
        ((getPos f.landmarks 11).z + (getPos f.landmarks 12).z) / 2⟩ : Vec3) = _
    rfl

/-- C8 witness: the virtual-joint identities evaluated on a concrete
33-landmark frame. -/
theorem C8_witness :
    33 ≤ demoFrame.landmarks.length ∧
    framePositions demoFrame "mixamorig:Spine" =
      vadd (vscale (7/10) (framePositions demoFrame "mixamorig:Hips"))
        (vscale (3/10) (framePositions demoFrame "mixamorig:Neck")) :=
  ⟨by decide, (C8_virtual_joints demoFrame (by decide)).2.2.1⟩

/-! ## Claim C5 (global-to-local conversion) -/

/-- C5 (confirmed).  For a root bone the pushed local orientation equals
its global orientation; for a non-root bone with a unit parent global
orientation, the pushed local orientation is `inverse(parentGlobal) *
global` (the source computes `conjugate(parentGlobal) * global`, which
equals the inverse for unit quaternions), equivalently `parentGlobal *
local = global`. -/
theorem C5_local_is_parent_relative (f : Frame) (b : FBone)
    (hb : b ∈ boneMap) :
    (b.parent = none → frameLocalQuat f b = frameGlobalQuat f b.name) ∧
    (∀ p, b.parent = some p → qnormSq (frameGlobalQuat f p) = 1 →
      frameLocalQuat f b =
        qmul (qinv (frameGlobalQuat f p)) (frameGlobalQuat f b.name) ∧
      qmul (frameGlobalQuat f p) (frameLocalQuat f b) =
        frameGlobalQuat f b.name) := by
  constructor
  · intro hp
    simp [frameLocalQuat, hp]
  · intro p hp hunit
    constructor
    · simp [frameLocalQuat, hp, qinv, hunit, qsmul_one]
    · simp only [frameLocalQuat, hp]
      rw [qmul_qconj_cancel, hunit, qsmul_one]

/-- C5 witness: the conversion evaluated for the `mixamorig:Spine` bone
(parent `mixamorig:Hips`) on a concrete frame, where the parent global
orientation is a unit quaternion. -/
theorem C5_witness :
    frameLocalQuat demoFrame
        ⟨"mixamorig:Spine", some "mixamorig:Hips", "Spine"⟩ =
      qmul (qinv (frameGlobalQuat demoFrame "mixamorig:Hips"))
        (frameGlobalQuat demoFrame "mixamorig:Spine") ∧
    qmul (frameGlobalQuat demoFrame "mixamorig:Hips")
        (frameLocalQuat demoFrame
          ⟨"mixamorig:Spine", some "mixamorig:Hips", "Spine"⟩) =
      frameGlobalQuat demoFrame "mixamorig:Spine" :=
  (C5_local_is_parent_relative demoFrame
      ⟨"mixamorig:Spine", some "mixamorig:Hips", "Spine"⟩ (by decide)).2
    "mixamorig:Hips" rfl (by with_unfolding_all rfl)

/-! ## Claim C2 (rotation-format track census) -/

theorem rotFlat_ne_nil (frames : List Frame) (b : FBone) (h : frames ≠ []) :
    rotFlat frames b ≠ [] := by
  cases frames with
  | nil => exact absurd rfl h
  | cons f fs => simp [rotFlat]

theorem posFlat_eq_nil (frames : List Frame) (b : FBone)
    (h : ¬ b.name = "mixamorig:Hips") : posFlat frames b = [] := by
  induction frames with
  | nil => rfl
  | cons f fs ih =>
    simp only [posFlat, List.flatMap_cons, if_neg h, List.nil_append] at ih ⊢
    exact ih

theorem posFlat_hips_ne_nil (frames : List Frame) (b : FBone)
    (hb : b.name = "mixamorig:Hips") (h : frames ≠ []) :
    posFlat frames b ≠ [] := by
  cases frames with
  | nil => exact absurd rfl h
  | cons f fs => simp [posFlat, hb]

/-- C2 (corrected).  For every non-empty frame sequence the rotation
export builds one quaternion track per bone of the 20-bone hierarchy —
not only for bones with a primary child, since the push loop runs for
every bone and so even a childless bone's rotation array is non-empty —
plus the root position track, for `boneMap.length + 1 = 21` tracks in
total; every track's time sequence is the frame timestamp list, whose
length is the input frame count. -/
theorem C2_track_census (frames : List Frame) (hne : frames ≠ [])
    (h33 : ∀ f ∈ frames, 33 ≤ f.landmarks.length) :
    (generateFBXTracks frames).length = boneMap.length + 1 ∧
    ∀ t ∈ generateFBXTracks frames, t.times.length = frames.length := by
  constructor
  · have hblock : ∀ b : FBone,
        ((if rotFlat frames b ≠ [] then
            [(⟨b.name ++ ".quaternion", fbxTimes frames, rotFlat frames b,
              true⟩ : KTrack)]
          else []) ++
         (if posFlat frames b ≠ [] then
            [(⟨b.name ++ ".position", fbxTimes frames, posFlat frames b,
              false⟩ : KTrack)]
          else [])).length = if b.name = "mixamorig:Hips" then 2 else 1 := by
      intro b
      by_cases hbn : b.name = "mixamorig:Hips"
      · simp [hbn, rotFlat_ne_nil frames b hne,
          posFlat_hips_ne_nil frames b hbn hne]
      · simp [hbn, rotFlat_ne_nil frames b hne, posFlat_eq_nil frames b hbn]
    rw [generateFBXTracks, List.length_flatMap]
    simp only [Function.comp_def]
    simp only [hblock]
    decide
  · intro t ht
    rw [generateFBXTracks] at ht
    rcases List.mem_flatMap.mp ht with ⟨b, hb, htb⟩
    rcases List.mem_append.mp htb with h1 | h1 <;>
      (split at h1
       · rw [List.mem_singleton.mp h1]
         simp [fbxTimes]
       · cases h1)

/-- C2 witness: the amended census evaluated on a concrete one-frame
input. -/
theorem C2_witness :
    (generateFBXTracks demoFrames).length = boneMap.length + 1 ∧
    ∀ t ∈ generateFBXTracks demoFrames, t.times.length = demoFrames.length :=
  C2_track_census demoFrames (by decide) (by decide)

/-- C2 counterexample: on a concrete one-frame input the exporter
produces 21 tracks, not `(bones with a primary child) + 1 = 16` as the
claim states. -/
theorem C2_counterexample :
    (generateFBXTracks demoFrames).length ≠
      (boneMap.filter fun b => (primaryChild b.name).isSome).length + 1 := by
  with_unfolding_all decide

/-! ## Smoother lemmas shared by the smoothing claims -/

theorem smoothLms_length (alpha : ℚ) (prev cs : List Landmark) :
    (smoothLms alpha prev cs).length = cs.length := by
  induction cs generalizing prev with
  | nil => rfl
  | cons c cs ih => simp [smoothLms, ih]

theorem head?_getElem? (l : List Landmark) : l.head? = l[0]? := by
  cases l <;> simp

theorem tail_getElem? (l : List Landmark) (j : ℕ) : l.tail[j]? = l[j + 1]? := by
  cases l <;> simp

theorem smoothLms_getElem? (alpha : ℚ) (prev cs : List Landmark) (j : ℕ) :
    (smoothLms alpha prev cs)[j]? =
      (cs[j]?).map (smoothLandmark alpha (prev[j]?.getD ⟨0, 0, 0, none⟩)) := by
  induction cs generalizing prev j with
  | nil => simp [smoothLms]
  | cons c cs ih =>
    cases j with
    | zero => simp [smoothLms, head?_getElem?]
    | succ j => simp [smoothLms, ih, tail_getElem?]

theorem smoothGo_length (alpha : ℚ) (prev : List Landmark) (cs : List Frame) :
    (smoothGo alpha prev cs).length = cs.length := by
  induction cs generalizing prev with
  | nil => rfl
  | cons c cs ih => simp [smoothGo, ih]

theorem smoothGo_getElem?_zero (alpha : ℚ) (prev : List Landmark)
    (cs : List Frame) :
    (smoothGo alpha prev cs)[0]? = (cs[0]?).map (smoothStep alpha prev) := by
  cases cs <;> simp [smoothGo]

theorem smoothGo_getElem?_succ (alpha : ℚ) (prev : List Landmark)
    (cs : List Frame) (i : ℕ) :
    (smoothGo alpha prev cs)[i + 1]? =
      ((smoothGo alpha prev cs)[i]?).bind fun s =>
        (cs[i + 1]?).map (smoothStep alpha s.landmarks) := by
  induction cs generalizing prev i with
  | nil => simp [smoothGo]
  | cons c cs ih =>
    cases i with
    | zero => simp [smoothGo, smoothGo_getElem?_zero]
    | succ i =>
      simp only [smoothGo, List.getElem?_cons_succ]
      exact ih _ i

theorem smoothFrames_getElem?_succ (frames : List Frame) (alpha : ℚ) (i : ℕ) :
    (smoothFrames frames alpha)[i + 1]? =
      ((smoothFrames frames alpha)[i]?).bind fun s =>
        (frames[i + 1]?).map (smoothStep alpha s.landmarks) := by
  cases frames with
  | nil => simp [smoothFrames]
  | cons f0 rest =>
    cases i with
    | zero => simp [smoothFrames, smoothGo_getElem?_zero]
    | succ i =>
      simp only [smoothFrames, List.getElem?_cons_succ]
      exact smoothGo_getElem?_succ alpha _ rest i

theorem smoothGo_timestamp (alpha : ℚ) (prev : List Landmark)
    (cs : List Frame) (i : ℕ) :
    ((smoothGo alpha prev cs)[i]?).map Frame.timestamp =
      (cs[i]?).map Frame.timestamp := by
  induction cs generalizing prev i with
  | nil => simp [smoothGo]
  | cons c cs ih =>
    cases i with
    | zero => simp [smoothGo, smoothStep]
    | succ i =>
      simp only [smoothGo, List.getElem?_cons_succ]
      exact ih _ i

theorem smoothGo_shape (alpha : ℚ) (cs : List Frame) :
    ∀ (prev : List Landmark) (i : ℕ) (si : Frame),
      (smoothGo alpha prev cs)[i]? = some si →
      ∃ p fi, cs[i]? = some fi ∧ si = smoothStep alpha p fi := by
  induction cs with
  | nil => intro prev i si h; simp [smoothGo] at h
  | cons c cs ih =>
    intro prev i si h
    cases i with
    | zero =>
      simp only [smoothGo, List.getElem?_cons_zero, Option.some.injEq] at h
      exact ⟨prev, c, by simp, h.symm⟩
    | succ i =>
      simp only [smoothGo, List.getElem?_cons_succ] at h
      obtain ⟨p, fi, hfi, hsi⟩ := ih _ i si h
      exact ⟨p, fi, by simpa using hfi, hsi⟩

theorem copyLandmark_id (l : Landmark) : copyLandmark l = l := rfl

/-- The landmark-level reading of one smoothing step: if frame `i + 1` of
the output and its raw counterpart both hold a `j`-th landmark, the
output landmark is the exponential-moving-average combination of the raw
current landmark with the previously *emitted* landmark. -/
theorem smoothFrames_out_landmark (frames : List Frame) (alpha : ℚ)
    (i j : ℕ) (prevF outF curF : Frame) (prevL outL curL : Landmark)
    (hp : (smoothFrames frames alpha)[i]? = some prevF)
    (ho : (smoothFrames frames alpha)[i + 1]? = some outF)
    (hc : frames[i + 1]? = some curF)
    (hpl : prevF.landmarks[j]? = some prevL)
    (hol : outF.landmarks[j]? = some outL)
    (hcl : curF.landmarks[j]? = some curL) :
    outL = smoothLandmark alpha prevL curL := by
  rw [smoothFrames_getElem?_succ, hp] at ho
  simp only [Option.some_bind, hc, Option.map_some'] at ho
  have hout : outF = smoothStep alpha prevF.landmarks curF :=
    (Option.some.inj ho).symm
  subst hout
  have hlm : (smoothStep alpha prevF.landmarks curF).landmarks[j]? =
      some outL := hol
  simp only [smoothStep] at hlm
  rw [smoothLms_getElem?, hcl, hpl] at hlm
  simp only [Option.map_some', Option.getD_some, Option.some.injEq] at hlm
  exact hlm.symm

/-! ## Claim C4 (smoother contract) -/

/-- C4 (confirmed).  The smoother returns a same-length sequence with
identical timestamps; the first output frame equals the first input frame
by value (the source deep-copies it, so the equality is one of values);
each frame's landmark count is preserved; and every subsequent output
coordinate is `alpha * raw_current + (1 - alpha) * smoothed_previous`
where `smoothed_previous` is the previously *emitted* (frame `i`) output
landmark — a recursive filter over its own prior output — with
`visibility` carried through from the current raw sample. -/
theorem C4_smoother_contract (frames : List Frame) (alpha : ℚ)
    (hne : frames ≠ []) (h0 : 0 < alpha) (h1 : alpha ≤ 1) :
    (smoothFrames frames alpha).length = frames.length ∧
    (∀ i : ℕ, ((smoothFrames frames alpha)[i]?).map Frame.timestamp =
      (frames[i]?).map Frame.timestamp) ∧
    (smoothFrames frames alpha).head? = frames.head? ∧
    (∀ (i : ℕ) (fi si : Frame), frames[i]? = some fi →
      (smoothFrames frames alpha)[i]? = some si →
      si.landmarks.length = fi.landmarks.length) ∧
    (∀ (i j : ℕ) (prevF outF curF : Frame) (prevL outL curL : Landmark),
      (smoothFrames frames alpha)[i]? = some prevF →
      (smoothFrames frames alpha)[i + 1]? = some outF →
      frames[i + 1]? = some curF →
      prevF.landmarks[j]? = some prevL →
      outF.landmarks[j]? = some outL →
      curF.landmarks[j]? = some curL →
      outL.x = alpha * curL.x + (1 - alpha) * prevL.x ∧
      outL.y = alpha * curL.y + (1 - alpha) * prevL.y ∧
      outL.z = alpha * curL.z + (1 - alpha) * prevL.z ∧
      outL.visibility = curL.visibility) := by
  refine ⟨?_, ?_, ?_, ?_, ?_⟩
  · cases frames with
    | nil => rfl
    | cons f0 rest => simp [smoothFrames, smoothGo_length]
  · intro i
    cases frames with
    | nil => simp [smoothFrames]
    | cons f0 rest =>
      cases i with
      | zero => simp [smoothFrames]
      | succ i =>
        simp only [smoothFrames, List.getElem?_cons_succ]
        exact smoothGo_timestamp alpha _ rest i
  · cases frames with
    | nil => rfl
    | cons f0 rest =>
      have hcp : copyLandmark = id := funext fun l => rfl
      simp [smoothFrames, hcp, List.map_id]
  · intro i fi si hfi hsi
    cases frames with
    | nil => simp at hfi
    | cons f0 rest =>
      cases i with
      | zero =>
        simp only [List.getElem?_cons_zero, Option.some.injEq] at hfi
        simp only [smoothFrames, List.getElem?_cons_zero,
          Option.some.injEq] at hsi
        subst hfi; subst hsi
        simp
      | succ i =>
        simp only [List.getElem?_cons_succ] at hfi
        simp only [smoothFrames, List.getElem?_cons_succ] at hsi
        obtain ⟨p, fi', hfi', hsi'⟩ := smoothGo_shape alpha rest _ i si hsi
        rw [hfi] at hfi'
        cases hfi'
        subst hsi'
        simp [smoothStep, smoothLms_length]
  · intro i j prevF outF curF prevL outL curL hp ho hc hpl hol hcl
    have houtL := smoothFrames_out_landmark frames alpha i j prevF outF curF
      prevL outL curL hp ho hc hpl hol hcl
    subst houtL
    simp [smoothLandmark]

/-- C4 witness: the contract evaluated on a concrete two-frame input with
`alpha = 1/2`. -/
theorem C4_witness :
    smoothDemoFrames ≠ [] ∧ (0 : ℚ) < 1/2 ∧ (1/2 : ℚ) ≤ 1 ∧
    ((smoothFrames smoothDemoFrames (1/2)).length = smoothDemoFrames.length ∧
     (∀ i : ℕ, ((smoothFrames smoothDemoFrames (1/2))[i]?).map Frame.timestamp =
       (smoothDemoFrames[i]?).map Frame.timestamp) ∧
     (smoothFrames smoothDemoFrames (1/2)).head? = smoothDemoFrames.head? ∧
     (∀ (i : ℕ) (fi si : Frame), smoothDemoFrames[i]? = some fi →
       (smoothFrames smoothDemoFrames (1/2))[i]? = some si →
       si.landmarks.length = fi.landmarks.length) ∧
     (∀ (i j : ℕ) (prevF outF curF : Frame) (prevL outL curL : Landmark),
       (smoothFrames smoothDemoFrames (1/2))[i]? = some prevF →
       (smoothFrames smoothDemoFrames (1/2))[i + 1]? = some outF →
       smoothDemoFrames[i + 1]? = some curF →
       prevF.landmarks[j]? = some prevL →
       outF.landmarks[j]? = some outL →
       curF.landmarks[j]? = some curL →
       outL.x = 1/2 * curL.x + (1 - 1/2) * prevL.x ∧
       outL.y = 1/2 * curL.y + (1 - 1/2) * prevL.y ∧
       outL.z = 1/2 * curL.z + (1 - 1/2) * prevL.z ∧
       outL.visibility = curL.visibility)) :=
  ⟨by decide, by norm_num, by norm_num,
   C4_smoother_contract smoothDemoFrames (1/2) (by decide) (by norm_num)
     (by norm_num)⟩

/-! ## Claim C9 (strict betweenness of smoothed coordinates) -/

theorem ema_strict_between (a p c : ℚ) (h0 : 0 < a) (h1 : a < 1)
    (hne : p ≠ c) :
    min p c < a * c + (1 - a) * p ∧ a * c + (1 - a) * p < max p c := by
  rcases lt_or_gt_of_ne hne with h | h
  · rw [min_eq_left h.le, max_eq_right h.le]
    constructor <;> nlinarith
  · rw [min_eq_right h.le, max_eq_left h.le]
    constructor <;> nlinarith

/-- C9 (corrected).  For `alpha` strictly between 0 and 1 and any frame
after the first, each smoothed coordinate lies strictly between the
previous smoothed coordinate and the current raw coordinate *provided
those two differ*; when they coincide the smoothed coordinate equals both
endpoints even though `alpha` is not at a boundary, so the unconditional
claim fails. -/
theorem C9_strict_betweenness (frames : List Frame) (alpha : ℚ)
    (h0 : 0 < alpha) (h1 : alpha < 1)
    (i j : ℕ) (prevF outF curF : Frame) (prevL outL curL : Landmark)
    (hp : (smoothFrames frames alpha)[i]? = some prevF)
    (ho : (smoothFrames frames alpha)[i + 1]? = some outF)
    (hc : frames[i + 1]? = some curF)
    (hpl : prevF.landmarks[j]? = some prevL)
    (hol : outF.landmarks[j]? = some outL)
    (hcl : curF.landmarks[j]? = some curL) :
    (prevL.x ≠ curL.x →
      min prevL.x curL.x < outL.x ∧ outL.x < max prevL.x curL.x) ∧
    (prevL.y ≠ curL.y →
      min prevL.y curL.y < outL.y ∧ outL.y < max prevL.y curL.y) ∧
    (prevL.z ≠ curL.z →
      min prevL.z curL.z < outL.z ∧ outL.z < max prevL.z curL.z) := by
  have houtL := smoothFrames_out_landmark frames alpha i j prevF outF curF
    prevL outL curL hp ho hc hpl hol hcl
  subst houtL
  exact ⟨fun hne => ema_strict_between alpha prevL.x curL.x h0 h1 hne,
    fun hne => ema_strict_between alpha prevL.y curL.y h0 h1 hne,
    fun hne => ema_strict_between alpha prevL.z curL.z h0 h1 hne⟩

/-- C9 witness: strict betweenness evaluated on a concrete two-frame
input with `alpha = 1/2` (the landmark moves on all three axes). -/
theorem C9_witness :
    ((0 : ℚ) ≠ 1 → min (0 : ℚ) 1 < 1/2 ∧ (1/2 : ℚ) < max 0 1) ∧
    ((0 : ℚ) ≠ 2 → min (0 : ℚ) 2 < 1 ∧ (1 : ℚ) < max 0 2) ∧
    ((0 : ℚ) ≠ 3 → min (0 : ℚ) 3 < 3/2 ∧ (3/2 : ℚ) < max 0 3) :=
  C9_strict_betweenness smoothDemoFrames (1/2) (by norm_num) (by norm_num)
    0 0 ⟨0, [⟨0, 0, 0, none⟩]⟩ ⟨1/30, [⟨1/2, 1, 3/2, some (1/2)⟩]⟩
    ⟨1/30, [⟨1, 2, 3, some (1/2)⟩]⟩
    ⟨0, 0, 0, none⟩ ⟨1/2, 1, 3/2, some (1/2)⟩ ⟨1, 2, 3, some (1/2)⟩
    (by with_unfolding_all rfl) (by with_unfolding_all rfl)
    (by with_unfolding_all rfl) (by with_unfolding_all rfl)
    (by with_unfolding_all rfl) (by with_unfolding_all rfl)

/-- C9 counterexample: with `alpha = 1/2` (not a boundary value) and a
landmark that does not move between two frames, the smoothed coordinate
equals both endpoints, so it is not strictly between them. -/
theorem C9_counterexample :
    (((smoothFrames stillFrames (1/2))[1]?.getD defaultFrame).landmarks[0]?.getD
        defaultLandmark).x = 1 ∧
    (((smoothFrames stillFrames (1/2))[0]?.getD defaultFrame).landmarks[0]?.getD
        defaultLandmark).x = 1 ∧
    ((stillFrames[1]?.getD defaultFrame).landmarks[0]?.getD
        defaultLandmark).x = 1 ∧
    ¬ (min (1 : ℚ) 1 < 1 ∧ (1 : ℚ) < max 1 1) ∧
    (1/2 : ℚ) ≠ 0 ∧ (1/2 : ℚ) ≠ 1 := by
  refine ⟨by with_unfolding_all rfl, by with_unfolding_all rfl,
    by with_unfolding_all rfl, by simp, by norm_num, by norm_num⟩

/-! ## Claim C3 (rotation solver reproduces the observed direction) -/

/-- C3 (confirmed).  Stated for arbitrary unit vectors `a` (a rest
direction, unit by the spec invariant of the rest-pose table) and `b`
(the normalized current-frame direction `normalize(child - bone)`): every
unit multiple `c • setFromUnitVectorsRaw a b` — in particular the value
`Quaternion.normalize` produces in exact arithmetic, which is the
quaternion the solver stores — rotates `a` exactly onto `b` under the
three.js `applyQuaternion` semantics (exact arithmetic, so the spec's
numerical tolerance is met with error zero); moreover in the generic
branch the constructed quaternion is the shortest-arc form, with vector
part `cross(a, b)` and scalar part `1 + dot(a, b)`.  The antiparallel
branch (`dot = -1`) is covered as well: the arbitrarily chosen
perpendicular axis still maps `a` to `b = -a`. -/
theorem C3_shortest_arc (a b : Vec3) (c : ℚ)
    (ha : vnormSq a = 1) (hb : vnormSq b = 1)
    (hu : qnormSq (qsmul c (setFromUnitVectorsRaw a b)) = 1) :
    vapplyQuat (qsmul c (setFromUnitVectorsRaw a b)) a = b ∧
    (0 < vdot a b + 1 →
      setFromUnitVectorsRaw a b =
        ⟨(vcross a b).x, (vcross a b).y, (vcross a b).z, vdot a b + 1⟩) := by
  obtain ⟨a1, a2, a3⟩ := a
  obtain ⟨b1, b2, b3⟩ := b
  simp only [vnormSq] at ha hb
  constructor
  · by_cases hr : vdot ⟨a1, a2, a3⟩ ⟨b1, b2, b3⟩ + 1 ≤ 0
    · -- antiparallel branch: b = -a is forced
      simp only [vdot] at hr
      have hd : a1 * b1 + a2 * b2 + a3 * b3 = -1 :=
        le_antisymm (by linarith)
          (by nlinarith [sq_nonneg (a1 + b1), sq_nonneg (a2 + b2),
            sq_nonneg (a3 + b3)])
      have e1 : (a1 + b1) ^ 2 = 0 :=
        le_antisymm (by nlinarith [sq_nonneg (a2 + b2), sq_nonneg (a3 + b3)])
          (sq_nonneg _)
      have e2 : (a2 + b2) ^ 2 = 0 :=
        le_antisymm (by nlinarith [sq_nonneg (a1 + b1), sq_nonneg (a3 + b3)])
          (sq_nonneg _)
      have e3 : (a3 + b3) ^ 2 = 0 :=
        le_antisymm (by nlinarith [sq_nonneg (a1 + b1), sq_nonneg (a2 + b2)])
          (sq_nonneg _)
      have hb1 : b1 = -a1 := by
        have := sq_eq_zero_iff.mp e1; linarith
      have hb2 : b2 = -a2 := by
        have := sq_eq_zero_iff.mp e2; linarith
      have hb3 : b3 = -a3 := by
        have := sq_eq_zero_iff.mp e3; linarith
      subst hb1; subst hb2; subst hb3
      have hr' : vdot ⟨a1, a2, a3⟩ ⟨-a1, -a2, -a3⟩ + 1 ≤ 0 := by
        simp only [vdot]; linarith
      simp only [setFromUnitVectorsRaw, if_pos hr'] at hu ⊢
      by_cases hxz : |a1| > |a3|
      · simp only [if_pos hxz] at hu ⊢
        simp only [qsmul, qnormSq] at hu
        simp only [vapplyQuat, qsmul, vcross, vscale, vadd, Vec3.mk.injEq]
        refine ⟨?_, ?_, ?_⟩
        · linear_combination (-2 * a1) * hu
        · linear_combination (-2 * a2) * hu
        · linear_combination (-2 * a3) * hu
      · simp only [if_neg hxz] at hu ⊢
        simp only [qsmul, qnormSq] at hu
        simp only [vapplyQuat, qsmul, vcross, vscale, vadd, Vec3.mk.injEq]
        refine ⟨?_, ?_, ?_⟩
        · linear_combination (-2 * a1) * hu
        · linear_combination (-2 * a2) * hu
        · linear_combination (-2 * a3) * hu
    · -- generic (shortest-arc) branch
      simp only [setFromUnitVectorsRaw, if_neg hr] at hu ⊢
      simp only [qsmul, qnormSq, vcross, vdot] at hu
      have h2c : 2 * c ^ 2 * (1 + (a1 * b1 + a2 * b2 + a3 * b3)) = 1 := by
        linear_combination hu - c ^ 2 * (b1 * b1 + b2 * b2 + b3 * b3) * ha -
          c ^ 2 * hb
      simp only [vapplyQuat, qsmul, vcross, vdot, vscale, vadd, Vec3.mk.injEq]
      refine ⟨?_, ?_, ?_⟩
      · linear_combination (b1 - a1) * h2c +
          (2 * c ^ 2 * ((1 + (a1 * b1 + a2 * b2 + a3 * b3)) * b1 -
            (b1 * b1 + b2 * b2 + b3 * b3) * a1)) * ha +
          (-(2 * c ^ 2 * a1)) * hb
      · linear_combination (b2 - a2) * h2c +
          (2 * c ^ 2 * ((1 + (a1 * b1 + a2 * b2 + a3 * b3)) * b2 -
            (b1 * b1 + b2 * b2 + b3 * b3) * a2)) * ha +
          (-(2 * c ^ 2 * a2)) * hb
      · linear_combination (b3 - a3) * h2c +
          (2 * c ^ 2 * ((1 + (a1 * b1 + a2 * b2 + a3 * b3)) * b3 -
            (b1 * b1 + b2 * b2 + b3 * b3) * a3)) * ha +
          (-(2 * c ^ 2 * a3)) * hb
  · intro h
    simp only [vdot] at h
    simp only [setFromUnitVectorsRaw, vcross, vdot]
    rw [if_neg (by linarith : ¬ (a1 * b1 + a2 * b2 + a3 * b3 + 1 ≤ 0))]

/-- C3 witness: concrete unit vectors `(1,0,0)` and `(7/25, 24/25, 0)`
with the unit multiple `c = 5/8` of the raw quaternion. -/
theorem C3_witness :
    vnormSq ⟨1, 0, 0⟩ = 1 ∧ vnormSq ⟨7/25, 24/25, 0⟩ = 1 ∧
    qnormSq (qsmul (5/8)
      (setFromUnitVectorsRaw ⟨1, 0, 0⟩ ⟨7/25, 24/25, 0⟩)) = 1 ∧
    (vapplyQuat (qsmul (5/8)
        (setFromUnitVectorsRaw ⟨1, 0, 0⟩ ⟨7/25, 24/25, 0⟩)) ⟨1, 0, 0⟩ =
      ⟨7/25, 24/25, 0⟩ ∧
     (0 < vdot ⟨1, 0, 0⟩ ⟨7/25, 24/25, 0⟩ + 1 →
       setFromUnitVectorsRaw ⟨1, 0, 0⟩ ⟨7/25, 24/25, 0⟩ =
         ⟨(vcross ⟨1, 0, 0⟩ ⟨7/25, 24/25, 0⟩).x,
          (vcross ⟨1, 0, 0⟩ ⟨7/25, 24/25, 0⟩).y,
          (vcross ⟨1, 0, 0⟩ ⟨7/25, 24/25, 0⟩).z,
          vdot ⟨1, 0, 0⟩ ⟨7/25, 24/25, 0⟩ + 1⟩)) :=
  ⟨by with_unfolding_all rfl, by with_unfolding_all rfl,
   by with_unfolding_all rfl,
   C3_shortest_arc ⟨1, 0, 0⟩ ⟨7/25, 24/25, 0⟩ (5/8)
     (by with_unfolding_all rfl) (by with_unfolding_all rfl)
     (by with_unfolding_all rfl)⟩

/-! ## String lemmas for the positional-format serialization claim -/

theorem strData_append (s t : String) : (s ++ t).data = s.data ++ t.data := rfl
theorem spaceData : " ".data = [' '] := rfl
theorem strExt {s t : String} (h : s.data = t.data) : s = t := by
  cases s; cases t; cases h; rfl
example : ("" : String) = ⟨[]⟩ := rfl
theorem strConcat_cons (s : String) (l : List String) :
    strConcat (s :: l) = s ++ strConcat l := strExt (by simp [strConcat])
example : (" 0.00 0.00 0.00 ").data =
  [' ','0','.','0','0',' ','0','.','0','0',' ','0','.','0','0',' '] := rfl
theorem isWs_space : isWs ' ' = true := rfl
example : isWs '0' = false := rfl

theorem digit_not_ws (d : ℕ) (hd : d < 10) : isWs (Char.ofNat (48 + d)) = false := by
  interval_cases d <;> rfl

theorem natDigits_not_ws (fuel n : ℕ) : ∀ c ∈ natDigits fuel n, isWs c = false := by
  induction fuel generalizing n with
  | zero => intro c hc; cases hc
  | succ fuel ih =>
    intro c hc
    rw [natDigits] at hc
    split at hc
    · rcases List.mem_singleton.mp hc with rfl
      exact digit_not_ws n (by omega)
    · rcases List.mem_append.mp hc with h | h
      · exact ih _ c h
      · rcases List.mem_singleton.mp h with rfl
        exact digit_not_ws (n % 10) (Nat.mod_lt _ (by omega))

theorem natDigits_ne_nil (fuel n : ℕ) (h : fuel ≠ 0) : natDigits fuel n ≠ [] := by
  cases fuel with
  | zero => exact absurd rfl h
  | succ fuel =>
    rw [natDigits]
    split
    · simp
    · simp

theorem padZeros_not_ws (w : ℕ) (s : List Char) (hs : ∀ c ∈ s, isWs c = false) :
    ∀ c ∈ padZeros w s, isWs c = false := by
  intro c hc
  rcases List.mem_append.mp hc with h | h
  · rcases List.eq_of_mem_replicate h with rfl
    rfl
  · exact hs c h

theorem natToStr_ne_nil (n : ℕ) : (natToStr n).data ≠ [] :=
  natDigits_ne_nil (n + 1) n (Nat.succ_ne_zero n)

theorem natToStr_not_ws (n : ℕ) : ∀ c ∈ (natToStr n).data, isWs c = false :=
  natDigits_not_ws (n + 1) n

theorem toFixedNonneg_ne_nil (d : ℕ) (q : ℚ) : (toFixedNonneg d q).data ≠ [] := by
  rw [toFixedNonneg]
  split
  · exact natToStr_ne_nil _
  · simp

theorem toFixedNonneg_not_ws (d : ℕ) (q : ℚ) :
    ∀ c ∈ (toFixedNonneg d q).data, isWs c = false := by
  rw [toFixedNonneg]
  split
  · exact natToStr_not_ws _
  · intro c hc
    simp only at hc
    rcases List.mem_append.mp hc with h | h
    · exact natToStr_not_ws _ c h
    · rcases List.mem_cons.mp h with rfl | h
      · rfl
      · exact padZeros_not_ws _ _ (natDigits_not_ws _ _) c h

theorem toFixedQ_ne_nil (d : ℕ) (q : ℚ) : (toFixedQ d q).data ≠ [] := by
  rw [toFixedQ]
  split
  · simp
  · exact toFixedNonneg_ne_nil d q

theorem toFixedQ_not_ws (d : ℕ) (q : ℚ) :
    ∀ c ∈ (toFixedQ d q).data, isWs c = false := by
  rw [toFixedQ]
  split
  · intro c hc
    rcases List.mem_cons.mp hc with rfl | h
    · rfl
    · exact toFixedNonneg_not_ws _ _ c h
  · exact toFixedNonneg_not_ws d q

theorem trailJoin_data (toks : List String) :
    (trailJoin toks).data = (toks.map fun t => t.data ++ [' ']).flatten := by
  simp [trailJoin, strConcat, List.map_map, Function.comp_def, strData_append]

theorem sepJoin_data_cons (t : String) (ts : List String) (h : ts ≠ []) :
    (sepJoin (t :: ts)).data = t.data ++ ' ' :: (sepJoin ts).data := by
  cases ts with
  | nil => exact absurd rfl h
  | cons u us => simp [sepJoin, strData_append]

theorem trailJoin_eq_sepJoin_space (toks : List String) (h : toks ≠ []) :
    (trailJoin toks).data = (sepJoin toks).data ++ [' '] := by
  induction toks with
  | nil => exact absurd rfl h
  | cons t ts ih =>
    by_cases hts : ts = []
    · subst hts
      simp [trailJoin_data, sepJoin]
    · rw [trailJoin_data, List.map_cons, List.flatten_cons,
        ← trailJoin_data, ih hts, sepJoin_data_cons t ts hts]
      simp

theorem sepJoin_head_not_ws (toks : List String) (h : toks ≠ [])
    (hne : ∀ t ∈ toks, t.data ≠ [])
    (hws : ∀ t ∈ toks, ∀ c ∈ t.data, isWs c = false) :
    ∃ ch rest, (sepJoin toks).data = ch :: rest ∧ isWs ch = false := by
  cases toks with
  | nil => exact absurd rfl h
  | cons t ts =>
    have h1 : t.data ≠ [] := hne t (List.mem_cons_self t ts)
    obtain ⟨ch, rest0, hd⟩ := List.exists_cons_of_ne_nil h1
    have hch : isWs ch = false :=
      hws t (List.mem_cons_self t ts) ch (by rw [hd]; exact List.mem_cons_self _ _)
    cases ts with
    | nil => exact ⟨ch, rest0, by simp [sepJoin, hd], hch⟩
    | cons u us =>
      refine ⟨ch, rest0 ++ ' ' :: (sepJoin (u :: us)).data, ?_, hch⟩
      rw [sepJoin_data_cons t (u :: us) (by simp), hd]
      simp

theorem sepJoin_rev_head_not_ws (toks : List String) (h : toks ≠ [])
    (hne : ∀ t ∈ toks, t.data ≠ [])
    (hws : ∀ t ∈ toks, ∀ c ∈ t.data, isWs c = false) :
    ∃ ch rest, (sepJoin toks).data.reverse = ch :: rest ∧ isWs ch = false := by
  induction toks with
  | nil => exact absurd rfl h
  | cons t ts ih =>
    cases ts with
    | nil =>
      have h1 : t.data ≠ [] := hne t (List.mem_cons_self t [])
      have h2 : t.data.reverse ≠ [] := by simpa using h1
      obtain ⟨ch, rest0, hd⟩ := List.exists_cons_of_ne_nil h2
      refine ⟨ch, rest0, by simp [sepJoin, hd], ?_⟩
      have hmem : ch ∈ t.data := by
        rw [← List.mem_reverse, hd]; exact List.mem_cons_self _ _
      exact hws t (List.mem_cons_self t []) ch hmem
    | cons u us =>
      obtain ⟨ch, rest, hrev, hch⟩ := ih (by simp)
        (fun s hs => hne s (List.mem_cons_of_mem t hs))
        (fun s hs => hws s (List.mem_cons_of_mem t hs))
      refine ⟨ch, rest ++ (' ' :: t.data.reverse), ?_, hch⟩
      rw [sepJoin_data_cons t (u :: us) (by simp)]
      simp [hrev]

theorem dropWhile_of_head_not_ws (l : List Char)
    (h : ∃ ch rest, l = ch :: rest ∧ isWs ch = false) :
    l.dropWhile isWs = l := by
  obtain ⟨ch, rest, rfl, hch⟩ := h
  simp [List.dropWhile_cons, hch]

theorem dropTrailingWs_append_space (l : List Char)
    (h : ∃ ch rest, l.reverse = ch :: rest ∧ isWs ch = false) :
    dropTrailingWs (l ++ [' ']) = l := by
  rw [dropTrailingWs, List.reverse_append]
  show ((' ' :: l.reverse).dropWhile isWs).reverse = l
  rw [List.dropWhile_cons]
  simp only [isWs_space, if_true]
  rw [dropWhile_of_head_not_ws l.reverse h, List.reverse_reverse]

theorem jsTrim_trailJoin (toks : List String)
    (hne : ∀ t ∈ toks, t.data ≠ [])
    (hws : ∀ t ∈ toks, ∀ c ∈ t.data, isWs c = false) :
    jsTrim (trailJoin toks) = sepJoin toks := by
  cases toks with
  | nil => rfl
  | cons t ts =>
    apply strExt
    show dropTrailingWs ((trailJoin (t :: ts)).data.dropWhile isWs) =
      (sepJoin (t :: ts)).data
    rw [trailJoin_eq_sepJoin_space (t :: ts) (by simp)]
    obtain ⟨ch, rest, hd, hch⟩ :=
      sepJoin_head_not_ws (t :: ts) (by simp) hne hws
    have hdw : ((sepJoin (t :: ts)).data ++ [' ']).dropWhile isWs =
        (sepJoin (t :: ts)).data ++ [' '] := by
      rw [hd]
      simp [List.dropWhile_cons, hch]
    rw [hdw, dropTrailingWs_append_space _
      (sepJoin_rev_head_not_ws (t :: ts) (by simp) hne hws)]

theorem boneLine_eq_trailJoin (f : Frame) (name : String) :
    boneLine f name = trailJoin (boneTokens f name) := by
  apply strExt
  rw [trailJoin_data]
  simp only [boneLine, boneTokens, List.map_cons, List.map_nil,
    List.flatten_cons, List.flatten_nil, strData_append]
  simp

theorem trailJoin_append (A B : List String) :
    trailJoin (A ++ B) = trailJoin A ++ trailJoin B := by
  apply strExt
  simp [trailJoin_data, strData_append]

theorem strConcat_map_trailJoin {α : Type} (l : List α) (g : α → List String) :
    strConcat (l.map fun c => trailJoin (g c)) = trailJoin (l.flatMap g) := by
  induction l with
  | nil => rfl
  | cons x xs ih =>
    rw [List.map_cons, strConcat_cons, ih, List.flatMap_cons, trailJoin_append]

theorem writeData_eq (f : Frame) :
    ∀ (fuel : ℕ) (name : String),
      writeData f fuel name = trailJoin (preTokensAux f fuel name) := by
  intro fuel
  induction fuel with
  | zero => intro name; rfl
  | succ fuel ih =>
    intro name
    rw [writeData, preTokensAux, trailJoin_append, ← boneLine_eq_trailJoin]
    congr 1
    rw [← strConcat_map_trailJoin]
    congr 1
    exact List.map_congr_left fun c _ => ih c.name

theorem motionLine_eq (f : Frame) :
    bvhMotionLine f = sepJoin (motionTokens f) := by
  rw [bvhMotionLine, writeData_eq]
  have hpre : preTokensAux f joints.length "Hips" = motionTokens f := rfl
  rw [hpre]
  apply jsTrim_trailJoin
  · intro t ht
    rcases List.mem_flatMap.mp ht with ⟨name, hname, htb⟩
    simp only [boneTokens, List.mem_cons, List.not_mem_nil, or_false] at htb
    rcases htb with rfl | rfl | rfl | rfl | rfl | rfl
    · exact toFixedQ_ne_nil _ _
    · exact toFixedQ_ne_nil _ _
    · exact toFixedQ_ne_nil _ _
    · decide
    · decide
    · decide
  · intro t ht
    rcases List.mem_flatMap.mp ht with ⟨name, hname, htb⟩
    simp only [boneTokens, List.mem_cons, List.not_mem_nil, or_false] at htb
    rcases htb with rfl | rfl | rfl | rfl | rfl | rfl
    · exact toFixedQ_not_ws _ _
    · exact toFixedQ_not_ws _ _
    · exact toFixedQ_not_ws _ _
    · decide
    · decide
    · decide

/-- C6 (confirmed).  For every non-empty frame sequence the positional
output consists of the hierarchy block followed by the motion block: a
frame count line, a frame-duration line holding `(1/30).toFixed(6) =
"0.033333"`, then exactly one line per input frame; each line is the
space-separated join (trailing whitespace trimmed away) of exactly
`6 × 15` tokens — per bone in hierarchy pre-order three positions
formatted to 4 decimal places then the three literal zero rotations (see
`motionTokens`) — every token being non-empty and whitespace-free, which
makes the token decomposition of each line unique. -/
theorem C6_motion_block (frames : List Frame) (hne : frames ≠ []) :
    generateBVH frames =
      bvhHierarchyText ++ "MOTION\n" ++
      "Frames: " ++ natToStr frames.length ++ "\n" ++
      "Frame Time: " ++ toFixedQ 6 (1/30) ++ "\n" ++
      strConcat (frames.map fun f => sepJoin (motionTokens f) ++ "\n") ∧
    toFixedQ 6 (1/30) = "0.033333" ∧
    (∀ f : Frame, (motionTokens f).length = 6 * 15) ∧
    (∀ (f : Frame) (t : String), t ∈ motionTokens f →
      t ≠ "" ∧ ∀ c ∈ t.data, isWs c = false) := by
  refine ⟨?_, by with_unfolding_all rfl, ?_, ?_⟩
  · rw [generateBVH, if_neg hne]
    have hmap : (frames.map fun f => bvhMotionLine f ++ "\n") =
        frames.map fun f => sepJoin (motionTokens f) ++ "\n" :=
      List.map_congr_left fun f _ => by rw [motionLine_eq]
    rw [hmap]
  · intro f
    simp [motionTokens, bvhPreorder, boneTokens]
  · intro f t ht
    rcases List.mem_flatMap.mp ht with ⟨name, hname, htb⟩
    simp only [boneTokens, List.mem_cons, List.not_mem_nil, or_false] at htb
    have hstr : ∀ s : String, s.data ≠ [] → s ≠ "" := by
      intro s hd he
      rw [he] at hd
      exact hd rfl
    rcases htb with rfl | rfl | rfl | rfl | rfl | rfl
    · exact ⟨hstr _ (toFixedQ_ne_nil _ _), toFixedQ_not_ws _ _⟩
    · exact ⟨hstr _ (toFixedQ_ne_nil _ _), toFixedQ_not_ws _ _⟩
    · exact ⟨hstr _ (toFixedQ_ne_nil _ _), toFixedQ_not_ws _ _⟩
    · exact ⟨by decide, by decide⟩
    · exact ⟨by decide, by decide⟩
    · exact ⟨by decide, by decide⟩

/-- C6 witness: the motion-block structure evaluated on a concrete
one-frame input. -/
theorem C6_witness :
    demoFrames ≠ [] ∧
    (generateBVH demoFrames =
      bvhHierarchyText ++ "MOTION\n" ++
      "Frames: " ++ natToStr demoFrames.length ++ "\n" ++
      "Frame Time: " ++ toFixedQ 6 (1/30) ++ "\n" ++
      strConcat (demoFrames.map fun f => sepJoin (motionTokens f) ++ "\n") ∧
    toFixedQ 6 (1/30) = "0.033333" ∧
    (∀ f : Frame, (motionTokens f).length = 6 * 15) ∧
    (∀ (f : Frame) (t : String), t ∈ motionTokens f →
      t ≠ "" ∧ ∀ c ∈ t.data, isWs c = false)) :=
  ⟨by decide, C6_motion_block demoFrames (by decide)⟩
